import Mathlib

/-!
Verification development for the CWA-14890 Secure Messaging engine of the
OpenSC DNIe driver.  The published interface is `src/libopensc/cwa14890.h`:
SM state/flag constants, wire-format tags, the TLV / session / status
structures and the prototypes of `cwa_create_secure_channel`,
`cwa_encode_apdu` and `cwa_decode_response`.  The structure layouts and
constant values below are embedded directly from that header; the behaviour
of the engine (TLV codec, padding, handshake state machine, protect and
unprotect operations), whose C implementation file is not part of the
sources at hand, is modelled from the specification's description of those
operations.
-/

namespace CWA14890

/-! ### Constants from cwa14890.h -/

/-- SM state indicator `CWA_SM_NONE` (0x00): no SM channel defined. -/
def CWA_SM_NONE : Nat := 0x00

/-- SM state indicator `CWA_SM_INPROGRESS` (0x01): channel being created. -/
def CWA_SM_INPROGRESS : Nat := 0x01

/-- SM state indicator `CWA_SM_ACTIVE` (0x02): channel is active. -/
def CWA_SM_ACTIVE : Nat := 0x02

/-- Flag `CWA_SM_OFF` (0x00): disable SM channel. -/
def CWA_SM_OFF : Nat := 0x00

/-- Flag `CWA_SM_COLD` (0x01): force creation of a new SM channel. -/
def CWA_SM_COLD : Nat := 0x01

/-- Flag `CWA_SM_WARM` (0x02): create a new SM channel only if not active. -/
def CWA_SM_WARM : Nat := 0x02

/-- Tag 0x81: plain value to be protected. -/
def CWA_SM_PLAIN_TAG : Nat := 0x81

/-- Tag 0x87: padding-content byte plus cryptogram. -/
def CWA_SM_CRYPTO_TAG : Nat := 0x87

/-- Tag 0x8E: cryptographic checksum (MAC). -/
def CWA_SM_MAC_TAG : Nat := 0x8E

/-- Tag 0x97: expected response length (Le). -/
def CWA_SM_LE_TAG : Nat := 0x97

/-- Tag 0x99: processing status word, MAC protected. -/
def CWA_SM_STATUS_TAG : Nat := 0x99

/-- Result code `SC_SUCCESS` (0). -/
def SC_SUCCESS : Int := 0

/-- Modelled from the spec: a distinct nonzero error code for an invalid
flag argument to channel creation; the numeric values of the libopensc
error codes are not among the sources, only success versus error is used. -/
def SC_ERROR_INVALID_ARGUMENTS : Int := -1

/-- Modelled from the spec: error code returned when the handshake aborts
(certificate, signature or provider failure). -/
def SC_ERROR_SM_HANDSHAKE : Int := -2

/-- Modelled from the spec: error code for a MAC integrity failure during
unprotect. -/
def SC_ERROR_SM_INTEGRITY : Int := -3

/-- Modelled from the spec: error code returned by protect/unprotect when
the session is not in the ACTIVE state. -/
def SC_ERROR_SM_NOT_ACTIVE : Int := -4

/-- Modelled from the spec: error code for malformed TLV input or an
internal encoding failure. -/
def SC_ERROR_INVALID_DATA : Int := -5

/-! ### Struct layouts from cwa14890.h

`ByteVec n` embeds a C array `u8 buf[n]`: a byte list whose length is the
declared array size. -/

/-- A fixed-size byte buffer: embeds `u8 buf[n]` fields of the header. -/
abbrev ByteVec (n : Nat) : Type := { l : List Nat // l.length = n }

/-- Embeds `struct cwa_sm_session_st` of cwa14890.h: lifecycle state,
the two 16-byte session keys and the 8-byte send sequence counter. -/
structure cwa_sm_session_t where
  state : Nat
  kenc : ByteVec 16
  kmac : ByteVec 16
  ssc : ByteVec 8

/-- Embeds `struct cwa_sm_status_st` of cwa14890.h: handshake scratch
material (two 32-byte key contributions, two 8-byte nonces, a 128-byte
signature buffer) plus the current session data. -/
structure cwa_sm_status_t where
  kicc : ByteVec 32
  kifd : ByteVec 32
  rndicc : ByteVec 8
  rndifd : ByteVec 8
  sig : ByteVec 128
  session : cwa_sm_session_t

/-! ### TLV codec

Modelled from the spec: the TLV codec of cwa14890.c is not among the
sources.  Single-byte tag, then a length field (short form when the first
length byte is below 0x80, long form with prefix 0x81/0x82/0x83 for one,
two or three length bytes), then the data bytes.  Length encodings of
0x01000000 bytes or more (prefix 0x84 and beyond) are unsupported and
rejected. -/

/-- Embeds `struct cwa_tlv_st` of cwa14890.h reduced to its logical
content: tag identifier, declared data length and the data view. -/
structure cwa_tlv_t where
  tag : Nat
  len : Nat
  data : List Nat
  deriving DecidableEq

/-- Modelled from the spec: TLV build operation. Emits the tag byte, the
minimal-length encoding of `data.length`, and the data bytes; lengths of
0x01000000 or more are unsupported. -/
def cwa_compose_tlv (tag : Nat) (data : List Nat) : Option (List Nat) :=
  if data.length < 0x80 then some (tag :: data.length :: data)
  else if data.length < 0x100 then some (tag :: 0x81 :: data.length :: data)
  else if data.length < 0x10000 then
    some (tag :: 0x82 :: data.length / 0x100 :: data.length % 0x100 :: data)
  else if data.length < 0x1000000 then
    some (tag :: 0x83 :: data.length / 0x10000 ::
      (data.length / 0x100) % 0x100 :: data.length % 0x100 :: data)
  else none

/-- Modelled from the spec: TLV parse operation.  Reads one tag byte and a
length field, checks the declared length against the remaining buffer, and
returns the TLV object together with the unconsumed rest of the buffer.
Length prefixes 0x80 and 0x84..0xFF are rejected outright. -/
def cwa_parse_tlv : List Nat → Option (cwa_tlv_t × List Nat)
  | tag :: l0 :: rest =>
    if l0 < 0x80 then
      if l0 ≤ rest.length then some (⟨tag, l0, rest.take l0⟩, rest.drop l0)
      else none
    else if l0 = 0x81 then
      match rest with
      | b1 :: r =>
        if b1 ≤ r.length then some (⟨tag, b1, r.take b1⟩, r.drop b1)
        else none
      | [] => none
    else if l0 = 0x82 then
      match rest with
      | b1 :: b2 :: r =>
        let n := b1 * 0x100 + b2
        if n ≤ r.length then some (⟨tag, n, r.take n⟩, r.drop n)
        else none
      | _ => none
    else if l0 = 0x83 then
      match rest with
      | b1 :: b2 :: b3 :: r =>
        let n := b1 * 0x10000 + b2 * 0x100 + b3
        if n ≤ r.length then some (⟨tag, n, r.take n⟩, r.drop n)
        else none
      | _ => none
    else none
  | _ => none

/-! ### Padding -/

/-- Modelled from the spec: the reversible padding rule.  Append a single
0x80 marker byte, then zero-fill to the next multiple of 8 bytes, applied
unconditionally. -/
def cwa_add_padding (data : List Nat) : List Nat :=
  data ++ 0x80 :: List.replicate (7 - data.length % 8) 0

/-- Modelled from the spec: remove the reversible padding.  Strip trailing
zero bytes, then the 0x80 marker; fails when no marker is found. -/
def cwa_remove_padding (data : List Nat) : Option (List Nat) :=
  match data.reverse.dropWhile (fun b => b == 0) with
  | 0x80 :: rest => some rest.reverse
  | _ => none

/-! ### Operational session model

Modelled from the spec: the engine functions of cwa14890.c are not among
the sources; the session state machine, the protect and unprotect
operations and the channel-establishment flow are modelled from the
specification's component design. -/

/-- Operational session state: lifecycle flag, session keys and the send
sequence counter (the counter value, incremented once per operation). -/
structure SmSession where
  state : Nat
  kenc : List Nat
  kmac : List Nat
  ssc : Nat
  deriving DecidableEq

/-- Operational SM status: handshake scratch material plus the session. -/
structure SmStatus where
  kicc : List Nat
  kifd : List Nat
  rndicc : List Nat
  rndifd : List Nat
  sig : List Nat
  session : SmSession
  deriving DecidableEq

/-- Modelled from the spec: the outcome of the five handshake steps
(certificate verification, external authenticate, internal authenticate,
key agreement, counter initialization) and the session material the
handshake would derive on success.  The card, provider and cryptography
collaborators are abstracted into this record. -/
structure HandshakeEnv where
  certOk : Bool
  extAuthOk : Bool
  intAuthOk : Bool
  keyAgreeOk : Bool
  counterOk : Bool
  kenc : List Nat
  kmac : List Nat
  ssc0 : Nat
  deriving DecidableEq

/-- All five handshake steps succeed. -/
def HandshakeEnv.allOk (e : HandshakeEnv) : Bool :=
  e.certOk && e.extAuthOk && e.intAuthOk && e.keyAgreeOk && e.counterOk

/-- Overwrite the handshake scratch material with zeros. -/
def zeroScratch (s : SmStatus) : SmStatus :=
  { s with kicc := List.replicate 32 0, kifd := List.replicate 32 0,
           rndicc := List.replicate 8 0, rndifd := List.replicate 8 0,
           sig := List.replicate 128 0 }

/-- Tear a session down: state NONE, session keys zeroized, scratch
material zeroized. -/
def tearDown (s : SmStatus) : SmStatus :=
  zeroScratch { s with
    session := { state := CWA_SM_NONE, kenc := List.replicate 16 0,
                 kmac := List.replicate 16 0, ssc := 0 } }

/-- Outcome of a channel-creation call: the returned code, the status on
return, whether the handshake was run, and the trace of lifecycle states
the session assumed during the call. -/
structure CreateOutcome where
  result : Int
  status : SmStatus
  ranHandshake : Bool
  trace : List Nat
  deriving DecidableEq

/-- Modelled from the spec: `cwa_create_secure_channel`.  Flag OFF tears
any channel down without a handshake, COLD always runs the handshake,
WARM runs it only when the current state is not already ACTIVE.  A
handshake first moves the state to INPROGRESS, then to ACTIVE when all
five steps succeed; any step failure aborts to NONE with the session keys
zeroized.  Scratch material is zeroized whenever the handshake ran. -/
def cwa_create_secure_channel (s : SmStatus) (flag : Nat) (env : HandshakeEnv) :
    CreateOutcome :=
  if flag = CWA_SM_OFF then
    ⟨SC_SUCCESS, tearDown s, false, [CWA_SM_NONE]⟩
  else if flag = CWA_SM_COLD ∨ flag = CWA_SM_WARM then
    if flag = CWA_SM_WARM ∧ s.session.state = CWA_SM_ACTIVE then
      ⟨SC_SUCCESS, s, false, []⟩
    else if env.allOk then
      ⟨SC_SUCCESS,
       zeroScratch { s with
         session := ⟨CWA_SM_ACTIVE, env.kenc, env.kmac, env.ssc0⟩ },
       true, [CWA_SM_INPROGRESS, CWA_SM_ACTIVE]⟩
    else
      ⟨SC_ERROR_SM_HANDSHAKE, tearDown s, true,
       [CWA_SM_INPROGRESS, CWA_SM_NONE]⟩
  else
    ⟨SC_ERROR_INVALID_ARGUMENTS, s, false, []⟩

/-! ### Protect / unprotect operations -/

/-- An APDU: header bytes, data field, expected length, status words. -/
structure Apdu where
  cla : Nat
  ins : Nat
  p1 : Nat
  p2 : Nat
  data : List Nat
  le : Option Nat
  sw1 : Nat
  sw2 : Nat
  deriving DecidableEq

/-- The cryptography collaborator: block-cipher encrypt/decrypt under a
key, and the chained MAC keyed by the MAC key with the sequence counter
as chaining state.  Supplied by an external library, abstracted as
function parameters. -/
structure CryptoEnv where
  encrypt : List Nat → List Nat → List Nat
  decrypt : List Nat → List Nat → List Nat
  mac : List Nat → Nat → List Nat → List Nat

/-- Modelled from the spec: `cwa_encode_apdu` (APDU protector).  Requires
an ACTIVE session; pads and encrypts the data into a cryptogram TLV,
emits an expected-length TLV when Le is present, increments the sequence
counter, MACs the marked header plus the TLVs, and assembles cryptogram,
Le and checksum TLVs in that order as the new data field. -/
def cwa_encode_apdu (ce : CryptoEnv) (s : SmSession) (a : Apdu) :
    Except Int (Apdu × SmSession) :=
  if s.state = CWA_SM_ACTIVE then
    let ctlv : Option (List Nat) :=
      if a.data = [] then some []
      else cwa_compose_tlv CWA_SM_CRYPTO_TAG
        (0x01 :: ce.encrypt s.kenc (cwa_add_padding a.data))
    let letlv : Option (List Nat) :=
      match a.le with
      | none => some []
      | some le => cwa_compose_tlv CWA_SM_LE_TAG [le % 0x100]
    match ctlv, letlv with
    | some ct, some lt =>
      let ssc1 := s.ssc + 1
      let macInput :=
        cwa_add_padding ([a.cla ||| 0x0C, a.ins, a.p1, a.p2] ++ ct ++ lt)
      let macv := (ce.mac s.kmac ssc1 macInput).take 4
      match cwa_compose_tlv CWA_SM_MAC_TAG macv with
      | some mt =>
        .ok ({ a with cla := a.cla ||| 0x0C, data := ct ++ lt ++ mt },
             { s with ssc := ssc1 })
      | none => .error SC_ERROR_INVALID_DATA
    | _, _ => .error SC_ERROR_INVALID_DATA
  else .error SC_ERROR_SM_NOT_ACTIVE

/-- Parse a buffer as a sequence of TLVs, with explicit fuel. -/
def parseTlvListFuel : Nat → List Nat → Option (List cwa_tlv_t)
  | _, [] => some []
  | 0, _ :: _ => none
  | fuel + 1, b :: bs =>
    match cwa_parse_tlv (b :: bs) with
    | some (t, rest) => (parseTlvListFuel fuel rest).map (t :: ·)
    | none => none

/-- Modelled from the spec: parse the data field of a protected response
as a sequence of TLV objects; any malformed TLV rejects the whole input. -/
def cwa_parse_tlv_list (buf : List Nat) : Option (List cwa_tlv_t) :=
  parseTlvListFuel buf.length buf

/-- First TLV with the given tag, if any. -/
def findTlv (tag : Nat) (l : List cwa_tlv_t) : Option cwa_tlv_t :=
  l.find? (fun t => t.tag == tag)

/-- Recompute the response MAC as the protector does: the re-encoded
cryptogram TLV (when present) followed by the re-encoded status TLV,
padded, MACed under the session MAC key with the incremented counter,
truncated to 4 bytes. -/
def recomputeMac (ce : CryptoEnv) (kmac : List Nat) (ssc : Nat)
    (ctlv : Option cwa_tlv_t) (stlv : cwa_tlv_t) : List Nat :=
  let body :=
    (match ctlv with
     | some t => (cwa_compose_tlv t.tag t.data).getD []
     | none => []) ++ (cwa_compose_tlv stlv.tag stlv.data).getD []
  (ce.mac kmac ssc (cwa_add_padding body)).take 4

/-- Outcome of an unprotect call: the plaintext (or error), the session on
return, and whether decryption was performed. -/
structure DecodeOutcome where
  result : Except Int (List Nat)
  session : SmSession
  decrypted : Bool

/-- Modelled from the spec: `cwa_decode_response` (APDU unprotector).
Requires an ACTIVE session; parses the TLV sequence (checksum and status
TLVs mandatory, cryptogram optional), increments the sequence counter,
recomputes the MAC and compares it with the received checksum.  A
mismatch is a fatal integrity error: no decryption is attempted and the
session is invalidated (state NONE, keys zeroized).  On a match the
cryptogram, when present, is stripped of its padding-indicator byte,
decrypted and unpadded. -/
def cwa_decode_response (ce : CryptoEnv) (s : SmSession) (resp : Apdu) :
    DecodeOutcome :=
  if s.state = CWA_SM_ACTIVE then
    match cwa_parse_tlv_list resp.data with
    | none => ⟨.error SC_ERROR_INVALID_DATA, s, false⟩
    | some tlvs =>
      match findTlv CWA_SM_MAC_TAG tlvs, findTlv CWA_SM_STATUS_TAG tlvs with
      | some mtlv, some stlv =>
        let ssc1 := s.ssc + 1
        let ctlv := findTlv CWA_SM_CRYPTO_TAG tlvs
        if recomputeMac ce s.kmac ssc1 ctlv stlv = mtlv.data then
          match ctlv with
          | some ct =>
            match ct.data with
            | _ :: cbytes =>
              match cwa_remove_padding (ce.decrypt s.kenc cbytes) with
              | some plain =>
                ⟨.ok (plain ++ stlv.data), { s with ssc := ssc1 }, true⟩
              | none =>
                ⟨.error SC_ERROR_INVALID_DATA, { s with ssc := ssc1 }, true⟩
            | [] => ⟨.error SC_ERROR_INVALID_DATA, { s with ssc := ssc1 }, false⟩
          | none => ⟨.ok stlv.data, { s with ssc := ssc1 }, false⟩
        else
          ⟨.error SC_ERROR_SM_INTEGRITY,
           { s with state := CWA_SM_NONE, kenc := List.replicate 16 0,
                    kmac := List.replicate 16 0, ssc := ssc1 }, false⟩
      | _, _ => ⟨.error SC_ERROR_INVALID_DATA, s, false⟩
  else ⟨.error SC_ERROR_SM_NOT_ACTIVE, s, false⟩

/-! ### Sequences of protect/unprotect operations -/

/-- One call against an active session: protect a command or unprotect a
response. -/
inductive SmOp where
  | protect (a : Apdu)
  | unprotect (a : Apdu)

/-- Apply one operation, keeping only the resulting session on success. -/
def applySmOp (ce : CryptoEnv) (s : SmSession) : SmOp → Option SmSession
  | .protect a =>
    match cwa_encode_apdu ce s a with
    | .ok (_, s2) => some s2
    | .error _ => none
  | .unprotect a =>
    match cwa_decode_response ce s a with
    | ⟨.ok _, s2, _⟩ => some s2
    | ⟨.error _, _, _⟩ => none

/-- Run a list of protect/unprotect operations, all of which must
succeed. -/
def runSmOps (ce : CryptoEnv) (s : SmSession) : List SmOp → Option SmSession
  | [] => some s
  | op :: rest =>
    match applySmOp ce s op with
    | some s2 => runSmOps ce s2 rest
    | none => none

/-- The sequence of counter values used by a run of operations (the value
after each increment). -/
def sscTrace (ce : CryptoEnv) (s : SmSession) : List SmOp → List Nat
  | [] => []
  | op :: rest =>
    match applySmOp ce s op with
    | some s2 => s2.ssc :: sscTrace ce s2 rest
    | none => []

/-! ### Concrete fixtures for closed instances -/

/-- Identity-style cryptography collaborator for concrete instances: the
cipher is the identity and the MAC is the constant `[1, 2, 3, 4]`. -/
def wCrypto : CryptoEnv :=
  ⟨fun _ d => d, fun _ d => d, fun _ _ _ => [1, 2, 3, 4]⟩

/-- An active session with counter value 5. -/
def wActiveSession : SmSession := ⟨CWA_SM_ACTIVE, [], [], 5⟩

/-- An SM status holding an active session and nonzero scratch bytes. -/
def wStatus : SmStatus := ⟨[1], [2], [3], [4], [5], wActiveSession⟩

/-- A handshake environment in which every step succeeds. -/
def wEnvOk : HandshakeEnv := ⟨true, true, true, true, true, [6], [7], 0⟩

/-- A handshake environment whose certificate step fails. -/
def wEnvFail : HandshakeEnv := ⟨false, true, true, true, true, [6], [7], 0⟩

/-- A plain command APDU (select the master file). -/
def wCmd : Apdu := ⟨0x00, 0xA4, 0x04, 0x0C, [0x3F, 0x00], none, 0, 0⟩

/-- A protected response APDU whose checksum TLV matches `wCrypto`'s
MAC. -/
def wRespOk : Apdu :=
  ⟨0, 0, 0, 0, [0x99, 2, 0x90, 0, 0x8E, 4, 1, 2, 3, 4], none, 0x90, 0⟩

/-- A protected response APDU whose checksum TLV does not match. -/
def wRespBad : Apdu :=
  ⟨0, 0, 0, 0, [0x99, 2, 0x90, 0, 0x8E, 4, 9, 9, 9, 9], none, 0x90, 0⟩

/-- A protect followed by an unprotect, both succeeding. -/
def wOps : List SmOp := [.protect wCmd, .unprotect wRespOk]

/-! ### Helper lemmas -/

/-- Dropping leading zero bytes stops at the 0x80 padding marker. -/
theorem dropWhile_zeros_marker (k : Nat) (l : List Nat) :
    List.dropWhile (fun b => b == 0) (List.replicate k 0 ++ 0x80 :: l) =
      0x80 :: l := by
  induction k with
  | zero => simp [List.dropWhile]
  | succ n ih => simp [List.replicate_succ, List.dropWhile, ih]

/-- Removing the padding added by `cwa_add_padding` recovers the input. -/
theorem cwa_remove_padding_of_add (data : List Nat) :
    cwa_remove_padding (cwa_add_padding data) = some data := by
  have h : (data ++ 0x80 :: List.replicate (7 - data.length % 8) 0).reverse =
      List.replicate (7 - data.length % 8) 0 ++ 0x80 :: data.reverse := by
    simp [List.reverse_append, List.reverse_cons, List.reverse_replicate,
      List.append_assoc]
  unfold cwa_add_padding cwa_remove_padding
  rw [h, dropWhile_zeros_marker]
  simp

/-! ### Claim theorems -/

/-- Claim C9: the session and handshake structures use exactly the fixed
buffer sizes the header declares: 16-byte encryption and MAC keys, an
8-byte send-sequence counter, 32-byte key contributions KICC and KIFD,
8-byte nonces RNDICC and RNDIFD, and a 128-byte (1024-bit) signature
buffer. -/
theorem claim_C9_buffer_sizes (se : cwa_sm_session_t) (st : cwa_sm_status_t) :
    se.kenc.val.length = 16 ∧ se.kmac.val.length = 16 ∧
    se.ssc.val.length = 8 ∧ st.kicc.val.length = 32 ∧
    st.kifd.val.length = 32 ∧ st.rndicc.val.length = 8 ∧
    st.rndifd.val.length = 8 ∧ st.sig.val.length = 128 ∧
    st.sig.val.length * 8 = 1024 :=
  ⟨se.kenc.property, se.kmac.property, se.ssc.property, st.kicc.property,
   st.kifd.property, st.rndicc.property, st.rndifd.property, st.sig.property,
   by rw [st.sig.property]⟩

/-- Claim C10: the three create-channel mode flags numerically coincide
with the three session lifecycle states — OFF = NONE = 0x00,
COLD = INPROGRESS = 0x01, WARM = ACTIVE = 0x02 — so a mode value passed
where a state is expected (or vice versa) cannot be told apart by its
value. -/
theorem claim_C10_flag_state_values :
    CWA_SM_OFF = CWA_SM_NONE ∧ CWA_SM_COLD = CWA_SM_INPROGRESS ∧
    CWA_SM_WARM = CWA_SM_ACTIVE ∧ CWA_SM_NONE = 0x00 ∧
    CWA_SM_INPROGRESS = 0x01 ∧ CWA_SM_ACTIVE = 0x02 := by
  decide

/-- Claim C6: the padding rule appends a 0x80 marker byte and zero-fills
to the next multiple of 8 unconditionally, so the padded length is always
the strictly larger next multiple of 8 (an already aligned input gains a
full extra block), and unpadding the padded string recovers exactly the
original bytes. -/
theorem claim_C6_padding_correct (data : List Nat) :
    (cwa_add_padding data).length = 8 * (data.length / 8 + 1) ∧
    (cwa_add_padding data).length % 8 = 0 ∧
    data.length < (cwa_add_padding data).length ∧
    cwa_remove_padding (cwa_add_padding data) = some data := by
  refine ⟨?_, ?_, ?_, cwa_remove_padding_of_add data⟩ <;>
    · unfold cwa_add_padding
      simp only [List.length_append, List.length_cons, List.length_replicate]
      omega

/-- The byte count of the minimal TLV length field for `n` data bytes. -/
def minLenField (n : Nat) : Nat :=
  if n < 0x80 then 1 else if n < 0x100 then 2 else if n < 0x10000 then 3 else 4

/-- Structural invariants of every successfully parsed TLV: the declared
length equals the byte count of the data view, the data view is drawn
from within the buffer, and data plus unconsumed rest fit inside it. -/
theorem cwa_parse_tlv_inv (buf : List Nat) (t : cwa_tlv_t) (rest : List Nat)
    (h : cwa_parse_tlv buf = some (t, rest)) :
    t.data.length = t.len ∧ t.data.Sublist buf ∧
    rest.length + t.len + 2 ≤ buf.length := by
  rcases buf with _ | ⟨t0, tl⟩
  · simp [cwa_parse_tlv] at h
  rcases tl with _ | ⟨l0, r0⟩
  · simp [cwa_parse_tlv] at h
  simp only [cwa_parse_tlv] at h
  by_cases h1 : l0 < 0x80
  · rw [if_pos h1] at h
    by_cases hg : l0 ≤ r0.length
    · rw [if_pos hg, Option.some.injEq, Prod.mk.injEq] at h
      obtain ⟨hteq, hrest⟩ := h
      subst hteq; subst hrest
      refine ⟨?_, ?_, ?_⟩
      · simp [List.length_take]; omega
      · exact ((List.take_sublist _ _).trans (List.sublist_cons_self _ _)).trans
          (List.sublist_cons_self _ _)
      · simp [List.length_drop]; omega
    · rw [if_neg hg] at h; exact absurd h (by simp)
  · rw [if_neg h1] at h
    by_cases h2 : l0 = 0x81
    · rw [if_pos h2] at h
      rcases r0 with _ | ⟨b1, r⟩
      · exact absurd h (by simp)
      replace h : (if b1 ≤ r.length then
          some ((⟨t0, b1, r.take b1⟩ : cwa_tlv_t), r.drop b1) else none) =
          some (t, rest) := h
      by_cases hg : b1 ≤ r.length
      · rw [if_pos hg, Option.some.injEq, Prod.mk.injEq] at h
        obtain ⟨hteq, hrest⟩ := h
        subst hteq; subst hrest
        refine ⟨?_, ?_, ?_⟩
        · simp [List.length_take]; omega
        · exact (((List.take_sublist _ _).trans
            (List.sublist_cons_self _ _)).trans
            (List.sublist_cons_self _ _)).trans (List.sublist_cons_self _ _)
        · simp [List.length_drop]; omega
      · rw [if_neg hg] at h; exact absurd h (by simp)
    · rw [if_neg h2] at h
      by_cases h3 : l0 = 0x82
      · rw [if_pos h3] at h
        rcases r0 with _ | ⟨b1, r0⟩
        · exact absurd h (by simp)
        rcases r0 with _ | ⟨b2, r⟩
        · exact absurd h (by simp)
        replace h : (if b1 * 0x100 + b2 ≤ r.length then
            some ((⟨t0, b1 * 0x100 + b2, r.take (b1 * 0x100 + b2)⟩ : cwa_tlv_t),
              r.drop (b1 * 0x100 + b2)) else none) = some (t, rest) := h
        by_cases hg : b1 * 0x100 + b2 ≤ r.length
        · rw [if_pos hg, Option.some.injEq, Prod.mk.injEq] at h
          obtain ⟨hteq, hrest⟩ := h
          subst hteq; subst hrest
          refine ⟨?_, ?_, ?_⟩
          · simp [List.length_take]; omega
          · exact ((((List.take_sublist _ _).trans
              (List.sublist_cons_self _ _)).trans
              (List.sublist_cons_self _ _)).trans
              (List.sublist_cons_self _ _)).trans (List.sublist_cons_self _ _)
          · simp [List.length_drop]; omega
        · rw [if_neg hg] at h; exact absurd h (by simp)
      · rw [if_neg h3] at h
        by_cases h4 : l0 = 0x83
        · rw [if_pos h4] at h
          rcases r0 with _ | ⟨b1, r0⟩
          · exact absurd h (by simp)
          rcases r0 with _ | ⟨b2, r0⟩
          · exact absurd h (by simp)
          rcases r0 with _ | ⟨b3, r⟩
          · exact absurd h (by simp)
          replace h : (if b1 * 0x10000 + b2 * 0x100 + b3 ≤ r.length then
              some ((⟨t0, b1 * 0x10000 + b2 * 0x100 + b3,
                r.take (b1 * 0x10000 + b2 * 0x100 + b3)⟩ : cwa_tlv_t),
                r.drop (b1 * 0x10000 + b2 * 0x100 + b3)) else none) =
              some (t, rest) := h
          by_cases hg : b1 * 0x10000 + b2 * 0x100 + b3 ≤ r.length
          · rw [if_pos hg, Option.some.injEq, Prod.mk.injEq] at h
            obtain ⟨hteq, hrest⟩ := h
            subst hteq; subst hrest
            refine ⟨?_, ?_, ?_⟩
            · simp [List.length_take]; omega
            · exact (((((List.take_sublist _ _).trans
                (List.sublist_cons_self _ _)).trans
                (List.sublist_cons_self _ _)).trans
                (List.sublist_cons_self _ _)).trans
                (List.sublist_cons_self _ _)).trans (List.sublist_cons_self _ _)
            · simp [List.length_drop]; omega
          · rw [if_neg hg] at h; exact absurd h (by simp)
        · rw [if_neg h4] at h; exact absurd h (by simp)

/-- Every accepted encoding of `n` data bytes with byte-valued entries is
at least as long as the minimal encoding: a parse of `buf2` that yields
data length `n` and consumes the whole buffer forces `buf2` to be at
least `1 + minLenField n + n` bytes. -/
theorem cwa_parse_tlv_min_length (tg : Nat) (data : List Nat)
    (buf2 : List Nat) (hbytes : buf2.all (fun b => b < 0x100) = true)
    (h2 : cwa_parse_tlv buf2 = some (⟨tg, data.length, data⟩, [])) :
    1 + minLenField data.length + data.length ≤ buf2.length := by
  have hshape : (buf2.length = 2 + data.length ∧ data.length < 0x80) ∨
      (buf2.length = 3 + data.length ∧ data.length < 0x100) ∨
      (buf2.length = 4 + data.length ∧ data.length < 0x10000) ∨
      buf2.length = 5 + data.length := by
    rcases buf2 with _ | ⟨t0, tl⟩
    · simp [cwa_parse_tlv] at h2
    rcases tl with _ | ⟨l0, r0⟩
    · simp [cwa_parse_tlv] at h2
    simp only [cwa_parse_tlv] at h2
    by_cases h1 : l0 < 0x80
    · rw [if_pos h1] at h2
      by_cases hg : l0 ≤ r0.length
      · rw [if_pos hg, Option.some.injEq, Prod.mk.injEq,
          cwa_tlv_t.mk.injEq] at h2
        obtain ⟨⟨_, hlen2, _⟩, hrest⟩ := h2
        have hr0 : r0.length - l0 = 0 := by
          have := congrArg List.length hrest
          simpa [List.length_drop] using this
        left
        constructor
        · simp; omega
        · omega
      · rw [if_neg hg] at h2; exact absurd h2 (by simp)
    · rw [if_neg h1] at h2
      by_cases hc2 : l0 = 0x81
      · rw [if_pos hc2] at h2
        rcases r0 with _ | ⟨b1, r⟩
        · exact absurd h2 (by simp)
        replace h2 : (if b1 ≤ r.length then
            some ((⟨t0, b1, r.take b1⟩ : cwa_tlv_t), r.drop b1) else none) =
            some ((⟨tg, data.length, data⟩ : cwa_tlv_t), ([] : List Nat)) := h2
        by_cases hg : b1 ≤ r.length
        · rw [if_pos hg, Option.some.injEq, Prod.mk.injEq,
            cwa_tlv_t.mk.injEq] at h2
          obtain ⟨⟨_, hlen2, _⟩, hrest⟩ := h2
          have hb1 : b1 < 0x100 := by
            have := List.all_eq_true.mp hbytes b1 (by simp)
            simpa using this
          have hr : r.length - b1 = 0 := by
            have := congrArg List.length hrest
            simpa [List.length_drop] using this
          right; left
          constructor
          · simp; omega
          · omega
        · rw [if_neg hg] at h2; exact absurd h2 (by simp)
      · rw [if_neg hc2] at h2
        by_cases hc3 : l0 = 0x82
        · rw [if_pos hc3] at h2
          rcases r0 with _ | ⟨b1, r0⟩
          · exact absurd h2 (by simp)
          rcases r0 with _ | ⟨b2, r⟩
          · exact absurd h2 (by simp)
          replace h2 : (if b1 * 0x100 + b2 ≤ r.length then
              some ((⟨t0, b1 * 0x100 + b2,
                r.take (b1 * 0x100 + b2)⟩ : cwa_tlv_t),
                r.drop (b1 * 0x100 + b2)) else none) =
              some ((⟨tg, data.length, data⟩ : cwa_tlv_t), ([] : List Nat)) := h2
          by_cases hg : b1 * 0x100 + b2 ≤ r.length
          · rw [if_pos hg, Option.some.injEq, Prod.mk.injEq,
              cwa_tlv_t.mk.injEq] at h2
            obtain ⟨⟨_, hlen2, _⟩, hrest⟩ := h2
            have hb1 : b1 < 0x100 := by
              have := List.all_eq_true.mp hbytes b1 (by simp)
              simpa using this
            have hb2 : b2 < 0x100 := by
              have := List.all_eq_true.mp hbytes b2 (by simp)
              simpa using this
            have hr : r.length - (b1 * 0x100 + b2) = 0 := by
              have := congrArg List.length hrest
              simpa [List.length_drop] using this
            right; right; left
            constructor
            · simp; omega
            · omega
          · rw [if_neg hg] at h2; exact absurd h2 (by simp)
        · rw [if_neg hc3] at h2
          by_cases hc4 : l0 = 0x83
          · rw [if_pos hc4] at h2
            rcases r0 with _ | ⟨b1, r0⟩
            · exact absurd h2 (by simp)
            rcases r0 with _ | ⟨b2, r0⟩
            · exact absurd h2 (by simp)
            rcases r0 with _ | ⟨b3, r⟩
            · exact absurd h2 (by simp)
            replace h2 : (if b1 * 0x10000 + b2 * 0x100 + b3 ≤ r.length then
                some ((⟨t0, b1 * 0x10000 + b2 * 0x100 + b3,
                  r.take (b1 * 0x10000 + b2 * 0x100 + b3)⟩ : cwa_tlv_t),
                  r.drop (b1 * 0x10000 + b2 * 0x100 + b3)) else none) =
                some ((⟨tg, data.length, data⟩ : cwa_tlv_t), ([] : List Nat)) :=
              h2
            by_cases hg : b1 * 0x10000 + b2 * 0x100 + b3 ≤ r.length
            · rw [if_pos hg, Option.some.injEq, Prod.mk.injEq,
                cwa_tlv_t.mk.injEq] at h2
              obtain ⟨⟨_, hlen2, _⟩, hrest⟩ := h2
              have hr : r.length - (b1 * 0x10000 + b2 * 0x100 + b3) = 0 := by
                have := congrArg List.length hrest
                simpa [List.length_drop] using this
              right; right; right
              simp; omega
            · rw [if_neg hg] at h2; exact absurd h2 (by simp)
          · rw [if_neg hc4] at h2; exact absurd h2 (by simp)
  rcases hshape with ⟨e, b⟩ | ⟨e, b⟩ | ⟨e, b⟩ | e <;>
    · unfold minLenField
      split_ifs <;> omega

/-- Claim C5: for every single-byte tag and every supported data length,
parsing the buffer produced by the TLV build operation yields back
exactly the original tag and data, consuming the whole buffer; the
buffer carries the minimal-length encoding (its size is
`1 + minLenField n + n`, no larger than any byte-valued encoding that
parses to the same tag and data). -/
theorem claim_C5_tlv_roundtrip (tg : Nat) (data buf buf2 : List Nat)
    (hlen : data.length < 0x1000000)
    (hb : cwa_compose_tlv tg data = some buf)
    (hbytes : buf2.all (fun b => b < 0x100) = true)
    (h2 : cwa_parse_tlv buf2 = some (⟨tg, data.length, data⟩, [])) :
    cwa_parse_tlv buf = some (⟨tg, data.length, data⟩, []) ∧
    buf.length = 1 + minLenField data.length + data.length ∧
    buf.length ≤ buf2.length := by
  have hmin := cwa_parse_tlv_min_length tg data buf2 hbytes h2
  unfold cwa_compose_tlv at hb
  by_cases c1 : data.length < 0x80
  · rw [if_pos c1, Option.some.injEq] at hb
    subst hb
    have hl : (tg :: data.length :: data).length =
        1 + minLenField data.length + data.length := by
      simp [minLenField, c1]; omega
    exact ⟨by simp [cwa_parse_tlv, c1], hl, hl ▸ hmin⟩
  · rw [if_neg c1] at hb
    by_cases c2 : data.length < 0x100
    · rw [if_pos c2, Option.some.injEq] at hb
      subst hb
      have hl : (tg :: 0x81 :: data.length :: data).length =
          1 + minLenField data.length + data.length := by
        simp [minLenField, c1, c2]; omega
      exact ⟨by simp [cwa_parse_tlv], hl, hl ▸ hmin⟩
    · rw [if_neg c2] at hb
      by_cases c3 : data.length < 0x10000
      · rw [if_pos c3, Option.some.injEq] at hb
        subst hb
        have hrec : data.length / 0x100 * 0x100 + data.length % 0x100 =
            data.length := by omega
        have hl : (tg :: 0x82 :: data.length / 0x100 ::
            data.length % 0x100 :: data).length =
            1 + minLenField data.length + data.length := by
          simp [minLenField, c1, c2, c3]; omega
        exact ⟨by simp [cwa_parse_tlv, hrec], hl, hl ▸ hmin⟩
      · rw [if_neg c3, if_pos hlen, Option.some.injEq] at hb
        subst hb
        have hrec : data.length / 0x10000 * 0x10000 +
            data.length / 0x100 % 0x100 * 0x100 + data.length % 0x100 =
            data.length := by omega
        have hl : (tg :: 0x83 :: data.length / 0x10000 ::
            data.length / 0x100 % 0x100 :: data.length % 0x100 :: data).length =
            1 + minLenField data.length + data.length := by
          simp [minLenField, c1, c2, c3]; omega
        exact ⟨by simp [cwa_parse_tlv, hrec], hl, hl ▸ hmin⟩

/-- Closed instance of the TLV round-trip at tag 0x87 and data
`[1, 2, 3]`. -/
theorem claim_C5_tlv_roundtrip_witness :
    cwa_parse_tlv [0x87, 3, 1, 2, 3] =
      some (⟨0x87, ([1, 2, 3] : List Nat).length, [1, 2, 3]⟩, []) ∧
    ([0x87, 3, 1, 2, 3] : List Nat).length =
      1 + minLenField ([1, 2, 3] : List Nat).length +
        ([1, 2, 3] : List Nat).length ∧
    ([0x87, 3, 1, 2, 3] : List Nat).length ≤
      ([0x87, 3, 1, 2, 3] : List Nat).length :=
  claim_C5_tlv_roundtrip 0x87 [1, 2, 3] [0x87, 3, 1, 2, 3] [0x87, 3, 1, 2, 3]
    (by decide) (by decide) (by decide) (by decide)

/-- Claim C7: every TLV produced by the parser keeps its data view inside
the buffer with the declared length equal to the view's byte count, and
the parser rejects unsupported length prefixes (0x84 and beyond, which
would encode lengths of 0x01000000 or more) as well as declared lengths
exceeding the remaining buffer, in the short form and in every long form
(0x81, 0x82 and 0x83), with no clamping or partial parse. -/
theorem claim_C7_tlv_parse_invariants (buf : List Nat) (t : cwa_tlv_t)
    (rest : List Nat) (h : cwa_parse_tlv buf = some (t, rest))
    (tg1 b : Nat) (tl1 : List Nat) (hb : 0x84 ≤ b)
    (tg2 l0 : Nat) (tl2 : List Nat) (hshort : l0 < 0x80)
    (hover : tl2.length < l0)
    (tg3 b1 : Nat) (tl3 : List Nat) (hover3 : tl3.length < b1)
    (tg4 e1 e2 : Nat) (tl4 : List Nat)
    (hover4 : tl4.length < e1 * 0x100 + e2)
    (tg5 f1 f2 f3 : Nat) (tl5 : List Nat)
    (hover5 : tl5.length < f1 * 0x10000 + f2 * 0x100 + f3) :
    t.data.length = t.len ∧ t.data.Sublist buf ∧
    rest.length + t.len + 2 ≤ buf.length ∧
    cwa_parse_tlv (tg1 :: b :: tl1) = none ∧
    cwa_parse_tlv (tg2 :: l0 :: tl2) = none ∧
    cwa_parse_tlv (tg3 :: 0x81 :: b1 :: tl3) = none ∧
    cwa_parse_tlv (tg4 :: 0x82 :: e1 :: e2 :: tl4) = none ∧
    cwa_parse_tlv (tg5 :: 0x83 :: f1 :: f2 :: f3 :: tl5) = none := by
  obtain ⟨hi1, hi2, hi3⟩ := cwa_parse_tlv_inv buf t rest h
  refine ⟨hi1, hi2, hi3, ?_, ?_, ?_, ?_, ?_⟩
  · have d1 : ¬ b < 0x80 := by omega
    have d2 : b ≠ 0x81 := by omega
    have d3 : b ≠ 0x82 := by omega
    have d4 : b ≠ 0x83 := by omega
    simp [cwa_parse_tlv, d1, d2, d3, d4]
  · have dg : ¬ l0 ≤ tl2.length := by omega
    simp [cwa_parse_tlv, hshort, dg]
  · have dg : ¬ b1 ≤ tl3.length := by omega
    simp [cwa_parse_tlv, dg]
  · have dg : ¬ e1 * 0x100 + e2 ≤ tl4.length := by omega
    simp [cwa_parse_tlv, dg]
  · have dg : ¬ f1 * 0x10000 + f2 * 0x100 + f3 ≤ tl5.length := by omega
    simp [cwa_parse_tlv, dg]

/-- Closed instance of the parser invariants: a parsed status TLV, a
rejected 0x84 length prefix, and rejected over-long declared lengths in
the short form and in the 0x81, 0x82 and 0x83 long forms. -/
theorem claim_C7_tlv_parse_invariants_witness :
    (⟨0x99, 2, [0x90, 0]⟩ : cwa_tlv_t).data.length =
      (⟨0x99, 2, [0x90, 0]⟩ : cwa_tlv_t).len ∧
    (⟨0x99, 2, [0x90, 0]⟩ : cwa_tlv_t).data.Sublist [0x99, 2, 0x90, 0] ∧
    ([] : List Nat).length + (⟨0x99, 2, [0x90, 0]⟩ : cwa_tlv_t).len + 2 ≤
      ([0x99, 2, 0x90, 0] : List Nat).length ∧
    cwa_parse_tlv [0, 0x84] = none ∧
    cwa_parse_tlv [0, 1] = none ∧
    cwa_parse_tlv [0, 0x81, 1] = none ∧
    cwa_parse_tlv [0, 0x82, 1, 0] = none ∧
    cwa_parse_tlv [0, 0x83, 1, 0, 0] = none :=
  claim_C7_tlv_parse_invariants [0x99, 2, 0x90, 0] ⟨0x99, 2, [0x90, 0]⟩ []
    (by decide) 0 0x84 [] (by decide) 0 1 [] (by decide) (by decide)
    0 1 [] (by decide) 0 1 0 [] (by decide) 0 1 0 0 [] (by decide)

/-- Claim C1: a create-channel call with mode WARM runs the handshake if
and only if the session state is not already ACTIVE; a WARM request
against an IN_PROGRESS session still runs the handshake, while a WARM
request against an ACTIVE session performs no handshake, returns success
and leaves the whole status unchanged. -/
theorem claim_C1_warm_mode (s : SmStatus) (env : HandshakeEnv) :
    ((cwa_create_secure_channel s CWA_SM_WARM env).ranHandshake = true ↔
      s.session.state ≠ CWA_SM_ACTIVE) ∧
    (s.session.state = CWA_SM_INPROGRESS →
      (cwa_create_secure_channel s CWA_SM_WARM env).ranHandshake = true) ∧
    (s.session.state = CWA_SM_ACTIVE →
      (cwa_create_secure_channel s CWA_SM_WARM env).status = s ∧
      (cwa_create_secure_channel s CWA_SM_WARM env).result = SC_SUCCESS ∧
      (cwa_create_secure_channel s CWA_SM_WARM env).ranHandshake = false) := by
  by_cases ha : s.session.state = 2
  · simp [cwa_create_secure_channel, CWA_SM_WARM, CWA_SM_OFF, CWA_SM_COLD,
      CWA_SM_ACTIVE, CWA_SM_INPROGRESS, ha]
  · by_cases hk : env.allOk = true
    · simp [cwa_create_secure_channel, CWA_SM_WARM, CWA_SM_OFF, CWA_SM_COLD,
        CWA_SM_ACTIVE, CWA_SM_INPROGRESS, ha, hk]
    · simp [cwa_create_secure_channel, CWA_SM_WARM, CWA_SM_OFF, CWA_SM_COLD,
        CWA_SM_ACTIVE, CWA_SM_INPROGRESS, ha, hk]

/-- Closed instance of the WARM mode behaviour at an ACTIVE session. -/
theorem claim_C1_warm_mode_witness :
    ((cwa_create_secure_channel wStatus CWA_SM_WARM wEnvOk).ranHandshake =
        true ↔ wStatus.session.state ≠ CWA_SM_ACTIVE) ∧
    (wStatus.session.state = CWA_SM_INPROGRESS →
      (cwa_create_secure_channel wStatus CWA_SM_WARM wEnvOk).ranHandshake =
        true) ∧
    (wStatus.session.state = CWA_SM_ACTIVE →
      (cwa_create_secure_channel wStatus CWA_SM_WARM wEnvOk).status =
        wStatus ∧
      (cwa_create_secure_channel wStatus CWA_SM_WARM wEnvOk).result =
        SC_SUCCESS ∧
      (cwa_create_secure_channel wStatus CWA_SM_WARM wEnvOk).ranHandshake =
        false) :=
  claim_C1_warm_mode wStatus wEnvOk

/-- Claim C2: the lifecycle flag only ever takes the values NONE,
IN_PROGRESS, ACTIVE; a run handshake ends ACTIVE exactly when all five
steps succeed, and on any step failure the state is NONE on return, the
call reports an error, and subsequent protect/unprotect calls on that
session fail rather than use stale keys. -/
theorem claim_C2_handshake_atomicity (ce : CryptoEnv) (s : SmStatus)
    (flag : Nat) (env : HandshakeEnv) (b c : Apdu) :
    (cwa_create_secure_channel s flag env).trace.all
      (fun x => x == CWA_SM_NONE || x == CWA_SM_INPROGRESS ||
        x == CWA_SM_ACTIVE) = true ∧
    ((cwa_create_secure_channel s flag env).ranHandshake = true →
      env.allOk = true →
      (cwa_create_secure_channel s flag env).status.session.state =
        CWA_SM_ACTIVE) ∧
    ((cwa_create_secure_channel s flag env).ranHandshake = true →
      env.allOk = false →
      (cwa_create_secure_channel s flag env).status.session.state =
        CWA_SM_NONE ∧
      (cwa_create_secure_channel s flag env).result ≠ SC_SUCCESS ∧
      cwa_encode_apdu ce (cwa_create_secure_channel s flag env).status.session
        b = .error SC_ERROR_SM_NOT_ACTIVE ∧
      (cwa_decode_response ce
        (cwa_create_secure_channel s flag env).status.session c).result =
        .error SC_ERROR_SM_NOT_ACTIVE) ∧
    ((cwa_create_secure_channel s flag env).status.session.state =
        CWA_SM_ACTIVE →
      (cwa_create_secure_channel s flag env).ranHandshake = true →
      env.allOk = true) := by
  by_cases h0 : flag = 0
  · simp [cwa_create_secure_channel, h0, CWA_SM_OFF, CWA_SM_NONE,
      CWA_SM_INPROGRESS, CWA_SM_ACTIVE, tearDown, zeroScratch]
  · by_cases h1 : flag = 1 ∨ flag = 2
    · by_cases h2 : flag = 2 ∧ s.session.state = 2
      · simp [cwa_create_secure_channel, h0, h1, h2, CWA_SM_OFF, CWA_SM_COLD,
          CWA_SM_WARM, CWA_SM_NONE, CWA_SM_INPROGRESS, CWA_SM_ACTIVE]
      · by_cases hk : env.allOk = true
        · simp [cwa_create_secure_channel, h0, h1, h2, hk, CWA_SM_OFF,
            CWA_SM_COLD, CWA_SM_WARM, CWA_SM_NONE, CWA_SM_INPROGRESS,
            CWA_SM_ACTIVE, zeroScratch]
        · simp [cwa_create_secure_channel, h0, h1, h2, hk, CWA_SM_OFF,
            CWA_SM_COLD, CWA_SM_WARM, CWA_SM_NONE, CWA_SM_INPROGRESS,
            CWA_SM_ACTIVE, tearDown, zeroScratch, SC_SUCCESS,
            SC_ERROR_SM_HANDSHAKE, SC_ERROR_SM_NOT_ACTIVE, cwa_encode_apdu,
            cwa_decode_response]
    · simp [cwa_create_secure_channel, h0, h1, CWA_SM_OFF, CWA_SM_COLD,
        CWA_SM_WARM, CWA_SM_NONE, CWA_SM_INPROGRESS, CWA_SM_ACTIVE]

/-- Closed instance of handshake atomicity: a COLD request whose
certificate step fails. -/
theorem claim_C2_handshake_atomicity_witness :
    (cwa_create_secure_channel wStatus CWA_SM_COLD wEnvFail).trace.all
      (fun x => x == CWA_SM_NONE || x == CWA_SM_INPROGRESS ||
        x == CWA_SM_ACTIVE) = true ∧
    ((cwa_create_secure_channel wStatus CWA_SM_COLD wEnvFail).ranHandshake =
        true → wEnvFail.allOk = true →
      (cwa_create_secure_channel wStatus CWA_SM_COLD
        wEnvFail).status.session.state = CWA_SM_ACTIVE) ∧
    ((cwa_create_secure_channel wStatus CWA_SM_COLD wEnvFail).ranHandshake =
        true → wEnvFail.allOk = false →
      (cwa_create_secure_channel wStatus CWA_SM_COLD
        wEnvFail).status.session.state = CWA_SM_NONE ∧
      (cwa_create_secure_channel wStatus CWA_SM_COLD wEnvFail).result ≠
        SC_SUCCESS ∧
      cwa_encode_apdu wCrypto (cwa_create_secure_channel wStatus CWA_SM_COLD
        wEnvFail).status.session wCmd = .error SC_ERROR_SM_NOT_ACTIVE ∧
      (cwa_decode_response wCrypto (cwa_create_secure_channel wStatus
        CWA_SM_COLD wEnvFail).status.session wRespOk).result =
        .error SC_ERROR_SM_NOT_ACTIVE) ∧
    ((cwa_create_secure_channel wStatus CWA_SM_COLD
        wEnvFail).status.session.state = CWA_SM_ACTIVE →
      (cwa_create_secure_channel wStatus CWA_SM_COLD wEnvFail).ranHandshake =
        true → wEnvFail.allOk = true) :=
  claim_C2_handshake_atomicity wCrypto wStatus CWA_SM_COLD wEnvFail wCmd
    wRespOk

/-- Claim C8: after channel establishment returns with the handshake run
(success or failure), the scratch fields kicc, kifd, rndicc, rndifd and
sig are overwritten with zeros; on teardown (mode OFF) and on handshake
failure the session keys are likewise zeroized. -/
theorem claim_C8_zeroization (s : SmStatus) (flag : Nat)
    (env : HandshakeEnv) :
    ((cwa_create_secure_channel s flag env).ranHandshake = true →
      (cwa_create_secure_channel s flag env).status.kicc =
        List.replicate 32 0 ∧
      (cwa_create_secure_channel s flag env).status.kifd =
        List.replicate 32 0 ∧
      (cwa_create_secure_channel s flag env).status.rndicc =
        List.replicate 8 0 ∧
      (cwa_create_secure_channel s flag env).status.rndifd =
        List.replicate 8 0 ∧
      (cwa_create_secure_channel s flag env).status.sig =
        List.replicate 128 0) ∧
    (flag = CWA_SM_OFF →
      (cwa_create_secure_channel s flag env).status.kicc =
        List.replicate 32 0 ∧
      (cwa_create_secure_channel s flag env).status.sig =
        List.replicate 128 0 ∧
      (cwa_create_secure_channel s flag env).status.session.kenc =
        List.replicate 16 0 ∧
      (cwa_create_secure_channel s flag env).status.session.kmac =
        List.replicate 16 0) ∧
    ((cwa_create_secure_channel s flag env).ranHandshake = true →
      env.allOk = false →
      (cwa_create_secure_channel s flag env).status.session.kenc =
        List.replicate 16 0 ∧
      (cwa_create_secure_channel s flag env).status.session.kmac =
        List.replicate 16 0) := by
  by_cases h0 : flag = 0
  · simp [cwa_create_secure_channel, h0, CWA_SM_OFF, tearDown, zeroScratch]
  · by_cases h1 : flag = 1 ∨ flag = 2
    · by_cases h2 : flag = 2 ∧ s.session.state = 2
      · simp [cwa_create_secure_channel, h0, h1, h2, CWA_SM_OFF, CWA_SM_COLD,
          CWA_SM_WARM, CWA_SM_ACTIVE]
      · by_cases hk : env.allOk = true
        · simp [cwa_create_secure_channel, h0, h1, h2, hk, CWA_SM_OFF,
            CWA_SM_COLD, CWA_SM_WARM, CWA_SM_ACTIVE, zeroScratch]
        · simp [cwa_create_secure_channel, h0, h1, h2, hk, CWA_SM_OFF,
            CWA_SM_COLD, CWA_SM_WARM, CWA_SM_ACTIVE, tearDown, zeroScratch]
    · simp [cwa_create_secure_channel, h0, h1, CWA_SM_OFF, CWA_SM_COLD,
        CWA_SM_WARM]

/-- Closed instance of zeroization: a COLD request whose certificate step
fails zeroizes scratch material and session keys. -/
theorem claim_C8_zeroization_witness :
    ((cwa_create_secure_channel wStatus CWA_SM_COLD wEnvFail).ranHandshake =
        true →
      (cwa_create_secure_channel wStatus CWA_SM_COLD wEnvFail).status.kicc =
        List.replicate 32 0 ∧
      (cwa_create_secure_channel wStatus CWA_SM_COLD wEnvFail).status.kifd =
        List.replicate 32 0 ∧
      (cwa_create_secure_channel wStatus CWA_SM_COLD
        wEnvFail).status.rndicc = List.replicate 8 0 ∧
      (cwa_create_secure_channel wStatus CWA_SM_COLD
        wEnvFail).status.rndifd = List.replicate 8 0 ∧
      (cwa_create_secure_channel wStatus CWA_SM_COLD wEnvFail).status.sig =
        List.replicate 128 0) ∧
    (CWA_SM_COLD = CWA_SM_OFF →
      (cwa_create_secure_channel wStatus CWA_SM_COLD wEnvFail).status.kicc =
        List.replicate 32 0 ∧
      (cwa_create_secure_channel wStatus CWA_SM_COLD wEnvFail).status.sig =
        List.replicate 128 0 ∧
      (cwa_create_secure_channel wStatus CWA_SM_COLD
        wEnvFail).status.session.kenc = List.replicate 16 0 ∧
      (cwa_create_secure_channel wStatus CWA_SM_COLD
        wEnvFail).status.session.kmac = List.replicate 16 0) ∧
    ((cwa_create_secure_channel wStatus CWA_SM_COLD wEnvFail).ranHandshake =
        true → wEnvFail.allOk = false →
      (cwa_create_secure_channel wStatus CWA_SM_COLD
        wEnvFail).status.session.kenc = List.replicate 16 0 ∧
      (cwa_create_secure_channel wStatus CWA_SM_COLD
        wEnvFail).status.session.kmac = List.replicate 16 0) :=
  claim_C8_zeroization wStatus CWA_SM_COLD wEnvFail

/-- Claim C3: whenever the recomputed MAC differs from the received
checksum TLV, the unprotect operation returns an integrity error,
performs no decryption, releases no plaintext, and invalidates the
session so that further protect and unprotect calls fail until the
channel is re-established. -/
theorem claim_C3_mac_mismatch (ce : CryptoEnv) (s : SmSession)
    (resp b c : Apdu) (tlvs : List cwa_tlv_t) (mtlv stlv : cwa_tlv_t)
    (hact : s.state = CWA_SM_ACTIVE)
    (hparse : cwa_parse_tlv_list resp.data = some tlvs)
    (hm : findTlv CWA_SM_MAC_TAG tlvs = some mtlv)
    (hs : findTlv CWA_SM_STATUS_TAG tlvs = some stlv)
    (hmm : recomputeMac ce s.kmac (s.ssc + 1)
      (findTlv CWA_SM_CRYPTO_TAG tlvs) stlv ≠ mtlv.data) :
    (cwa_decode_response ce s resp).result = .error SC_ERROR_SM_INTEGRITY ∧
    (cwa_decode_response ce s resp).decrypted = false ∧
    (cwa_decode_response ce s resp).session.state = CWA_SM_NONE ∧
    cwa_encode_apdu ce (cwa_decode_response ce s resp).session b =
      .error SC_ERROR_SM_NOT_ACTIVE ∧
    (cwa_decode_response ce (cwa_decode_response ce s resp).session c).result =
      .error SC_ERROR_SM_NOT_ACTIVE := by
  have key : cwa_decode_response ce s resp =
      ⟨.error SC_ERROR_SM_INTEGRITY,
       { s with state := CWA_SM_NONE, kenc := List.replicate 16 0,
                kmac := List.replicate 16 0, ssc := s.ssc + 1 }, false⟩ := by
    unfold cwa_decode_response
    rw [if_pos hact, hparse]
    simp only [hm, hs, if_neg hmm]
  rw [key]
  refine ⟨rfl, rfl, rfl, ?_, ?_⟩
  · unfold cwa_encode_apdu
    rw [if_neg (by simp [CWA_SM_NONE, CWA_SM_ACTIVE])]
  · unfold cwa_decode_response
    rw [if_neg (by simp [CWA_SM_NONE, CWA_SM_ACTIVE])]

/-- Closed instance of the MAC-mismatch behaviour at a response whose
checksum TLV does not match the recomputed MAC. -/
theorem claim_C3_mac_mismatch_witness :
    (cwa_decode_response wCrypto wActiveSession wRespBad).result =
      .error SC_ERROR_SM_INTEGRITY ∧
    (cwa_decode_response wCrypto wActiveSession wRespBad).decrypted =
      false ∧
    (cwa_decode_response wCrypto wActiveSession wRespBad).session.state =
      CWA_SM_NONE ∧
    cwa_encode_apdu wCrypto
      (cwa_decode_response wCrypto wActiveSession wRespBad).session wCmd =
      .error SC_ERROR_SM_NOT_ACTIVE ∧
    (cwa_decode_response wCrypto
      (cwa_decode_response wCrypto wActiveSession wRespBad).session
      wRespOk).result = .error SC_ERROR_SM_NOT_ACTIVE :=
  claim_C3_mac_mismatch wCrypto wActiveSession wRespBad wCmd wRespOk
    [⟨0x99, 2, [0x90, 0]⟩, ⟨0x8E, 4, [9, 9, 9, 9]⟩]
    ⟨0x8E, 4, [9, 9, 9, 9]⟩ ⟨0x99, 2, [0x90, 0]⟩
    (by decide) (by decide) (by decide) (by decide) (by decide)

/-- Every successful protect or unprotect call increments the sequence
counter by exactly one. -/
theorem applySmOp_ssc (ce : CryptoEnv) (s s2 : SmSession) (op : SmOp)
    (h : applySmOp ce s op = some s2) : s2.ssc = s.ssc + 1 := by
  cases op with
  | protect a =>
    unfold applySmOp at h
    replace h : (match cwa_encode_apdu ce s a with
      | Except.ok (_, s3) => some s3
      | Except.error _ => none) = some s2 := h
    split at h
    · rename_i a2 s3 heq
      obtain rfl := Option.some.inj h
      by_cases hsa : s.state = CWA_SM_ACTIVE
      · unfold cwa_encode_apdu at heq
        rw [if_pos hsa] at heq
        dsimp only at heq
        repeat' split at heq
        all_goals
          first
          | (cases heq; rfl)
          | injection heq
      · unfold cwa_encode_apdu at heq
        rw [if_neg hsa] at heq
        exact absurd heq (by simp)
    · exact absurd h (by simp)
  | unprotect a =>
    unfold applySmOp at h
    replace h : (match cwa_decode_response ce s a with
      | ⟨.ok _, s3, _⟩ => some s3
      | ⟨.error _, _, _⟩ => none) = some s2 := h
    split at h
    · rename_i plain s3 dec heq
      obtain rfl := Option.some.inj h
      by_cases hsa : s.state = CWA_SM_ACTIVE
      · unfold cwa_decode_response at heq
        rw [if_pos hsa] at heq
        dsimp only at heq
        repeat' split at heq
        all_goals
          first
          | (cases heq; rfl)
          | (injection heq with h1 h2 h3
             injection h1)
      · unfold cwa_decode_response at heq
        rw [if_neg hsa] at heq
        exact absurd heq (by simp)
    · exact absurd h (by simp)

/-- Shift lemma for counter traces over `List.range`. -/
theorem map_range_shift (a n : Nat) :
    (List.range (n + 1)).map (fun i => a + 1 + i) =
      (a + 1) :: (List.range n).map (fun i => a + 1 + 1 + i) := by
  have hf : ((fun i => a + 1 + i) ∘ Nat.succ) = (fun i => a + 1 + 1 + i) := by
    funext i
    show a + 1 + (i + 1) = a + 1 + 1 + i
    omega
  rw [List.range_succ_eq_map, List.map_cons, List.map_map, hf]

/-- A successful run of operations advances the counter by the number of
operations, and the counter values used are the consecutive successors of
the initial value. -/
theorem runSmOps_ssc_trace (ce : CryptoEnv) (ops : List SmOp) :
    ∀ s s2 : SmSession, runSmOps ce s ops = some s2 →
      s2.ssc = s.ssc + ops.length ∧
      sscTrace ce s ops =
        (List.range ops.length).map (fun i => s.ssc + 1 + i) := by
  induction ops with
  | nil =>
    intro s s2 h
    replace h : some s = some s2 := h
    obtain rfl := Option.some.inj h
    simp [sscTrace]
  | cons op rest ih =>
    intro s s2 h
    unfold runSmOps at h
    rcases hap : applySmOp ce s op with _ | s1
    · rw [hap] at h; exact absurd h (by simp)
    · rw [hap] at h
      replace h : runSmOps ce s1 rest = some s2 := h
      have h1 := applySmOp_ssc ce s s1 op hap
      obtain ⟨e1, e2⟩ := ih s1 s2 h
      have e3 : sscTrace ce s (op :: rest) = s1.ssc :: sscTrace ce s1 rest := by
        show (match applySmOp ce s op with
          | some s4 => s4.ssc :: sscTrace ce s4 rest
          | none => []) = s1.ssc :: sscTrace ce s1 rest
        rw [hap]
      refine ⟨by simp only [List.length_cons]; omega, ?_⟩
      rw [e3, e2, h1, List.length_cons, map_range_shift]

/-- Claim C4: for every sequence of N successful protect/unprotect calls
on one active session, the sequence counter ends at its initial value
plus N; the counter values used are strictly increasing and none is ever
reused. -/
theorem claim_C4_ssc_monotonic (ce : CryptoEnv) (s s2 : SmSession)
    (ops : List SmOp) (h : runSmOps ce s ops = some s2) :
    s2.ssc = s.ssc + ops.length ∧
    sscTrace ce s ops =
      (List.range ops.length).map (fun i => s.ssc + 1 + i) ∧
    List.Pairwise (· < ·) (sscTrace ce s ops) ∧
    (sscTrace ce s ops).Nodup := by
  obtain ⟨e1, e2⟩ := runSmOps_ssc_trace ce ops s s2 h
  have hpw : List.Pairwise (· < ·) (sscTrace ce s ops) := by
    rw [e2]
    exact List.Pairwise.map _ (fun a b hab => by omega)
      (List.pairwise_lt_range _)
  exact ⟨e1, e2, hpw, hpw.imp Nat.ne_of_lt⟩

/-- Closed instance of counter monotonicity: one protect and one
unprotect starting from counter 5 end at counter 7, values 6 and 7. -/
theorem claim_C4_ssc_monotonic_witness :
    (⟨CWA_SM_ACTIVE, [], [], 7⟩ : SmSession).ssc =
      wActiveSession.ssc + wOps.length ∧
    sscTrace wCrypto wActiveSession wOps =
      (List.range wOps.length).map (fun i => wActiveSession.ssc + 1 + i) ∧
    List.Pairwise (· < ·) (sscTrace wCrypto wActiveSession wOps) ∧
    (sscTrace wCrypto wActiveSession wOps).Nodup :=
  claim_C4_ssc_monotonic wCrypto wActiveSession ⟨CWA_SM_ACTIVE, [], [], 7⟩
    wOps (by decide)

end CWA14890
